import Mathlib

/-!
Verification of the Daily Diet API core logic: the best-streak computation
(src/utils/streakCalculator.js and its copy in the metrics service) and the
refresh-token lifecycle (src/services/authService.js), embedded shallowly
as Lean definitions translated from the JavaScript source.
-/

namespace DailyDiet

/-- A meal record as selected by the metrics service
(`select: id, datetime, is_on_diet`); the streak computation reads only
the `is_on_diet` flag. -/
structure Meal where
  id : Nat
  datetime : Int
  is_on_diet : Bool
deriving Repr, DecidableEq

/-- The JavaScript argument passed to `calculateBestStreak`: either an
actual array of meals, or the degenerate values `null` / `undefined`. -/
inductive MealsInput where
  | jsNull : MealsInput
  | jsUndefined : MealsInput
  | arr : List Meal → MealsInput
deriving Repr, DecidableEq

namespace StreakCalculator

/-- The `for (const meal of meals)` loop body of `calculateBestStreak`
(src/utils/streakCalculator.js lines 25-36): on an on-diet meal increment
`currentStreak` and update `bestStreak` when strictly larger; on an
off-diet meal reset `currentStreak` to 0. -/
def streakLoop : List Meal → Nat → Nat → Nat
  | [], _, bestStreak => bestStreak
  | meal :: rest, currentStreak, bestStreak =>
    if meal.is_on_diet then
      streakLoop rest (currentStreak + 1)
        (if currentStreak + 1 > bestStreak then currentStreak + 1 else bestStreak)
    else
      streakLoop rest 0 bestStreak

/-- `calculateBestStreak` from src/utils/streakCalculator.js lines 17-39:
`if (!meals || meals.length === 0) return 0` and then the linear loop. -/
def calculateBestStreak : MealsInput → Nat
  | .jsNull => 0
  | .jsUndefined => 0
  | .arr meals => if meals.length = 0 then 0 else streakLoop meals 0 0

end StreakCalculator

/-- `mid` occurs as one contiguous segment of `l`. -/
def IsContiguousRun (mid l : List Meal) : Prop :=
  ∃ s t, l = s ++ mid ++ t

/-- Every record of the segment carries the on-diet flag. -/
def AllOnDiet (mid : List Meal) : Prop :=
  ∀ m ∈ mid, m.is_on_diet = true

instance (mid : List Meal) : Decidable (AllOnDiet mid) := by
  unfold AllOnDiet; infer_instance

namespace StreakCalculator

/-- Reference recursion: the longest on-diet run in `replicate cur true ++ l`,
carrying the length `cur` of the run currently open on entry. -/
def extRun : List Meal → Nat → Nat
  | [], cur => cur
  | m :: rest, cur =>
    if m.is_on_diet then extRun rest (cur + 1) else max cur (extRun rest 0)

theorem le_extRun (l : List Meal) : ∀ cur, cur ≤ extRun l cur := by
  induction l with
  | nil => intro cur; simp [extRun]
  | cons m rest ih =>
    intro cur
    by_cases hm : m.is_on_diet = true
    · have h := ih (cur + 1)
      have h1 : extRun (m :: rest) cur = extRun rest (cur + 1) := by simp [extRun, hm]
      omega
    · have h1 : extRun (m :: rest) cur = max cur (extRun rest 0) := by simp [extRun, hm]
      omega

theorem extRun_mono (l : List Meal) :
    ∀ c c', c ≤ c' → extRun l c ≤ extRun l c' := by
  induction l with
  | nil => intro c c' h; simpa [extRun] using h
  | cons m rest ih =>
    intro c c' h
    by_cases hm : m.is_on_diet = true
    · have h1 : extRun (m :: rest) c = extRun rest (c + 1) := by simp [extRun, hm]
      have h2 : extRun (m :: rest) c' = extRun rest (c' + 1) := by simp [extRun, hm]
      have h3 := ih (c + 1) (c' + 1) (by omega)
      omega
    · have h1 : extRun (m :: rest) c = max c (extRun rest 0) := by simp [extRun, hm]
      have h2 : extRun (m :: rest) c' = max c' (extRun rest 0) := by simp [extRun, hm]
      omega

theorem extRun_append_le (A : List Meal) :
    ∀ (B : List Meal) (c : Nat), extRun B 0 ≤ extRun (A ++ B) c := by
  induction A with
  | nil =>
    intro B c
    exact extRun_mono B 0 c (Nat.zero_le c)
  | cons a A ih =>
    intro B c
    by_cases hm : a.is_on_diet = true
    · have h1 : extRun ((a :: A) ++ B) c = extRun (A ++ B) (c + 1) := by
        rw [List.cons_append]; simp [extRun, hm]
      have h2 := ih B (c + 1)
      omega
    · have h1 : extRun ((a :: A) ++ B) c = max c (extRun (A ++ B) 0) := by
        rw [List.cons_append]; simp [extRun, hm]
      have h2 := ih B 0
      omega

theorem extRun_all_on_diet_append (A : List Meal) (hA : AllOnDiet A) :
    ∀ (B : List Meal) (c : Nat), extRun (A ++ B) c = extRun B (c + A.length) := by
  induction A with
  | nil => intro B c; simp
  | cons a A ih =>
    intro B c
    have ha : a.is_on_diet = true := hA a (by simp)
    have hA' : AllOnDiet A := fun m hm => hA m (by simp [hm])
    have h1 : extRun ((a :: A) ++ B) c = extRun (A ++ B) (c + 1) := by
      rw [List.cons_append]; simp [extRun, ha]
    rw [h1, ih hA' B (c + 1)]
    have h2 : (a :: A).length = A.length + 1 := by simp
    rw [h2]
    congr 1
    omega

/-- Maximality half of the streak specification: every contiguous all-on-diet
segment is at most `extRun l 0` long. -/
theorem run_le_extRun (mid l : List Meal)
    (hrun : IsContiguousRun mid l) (hdiet : AllOnDiet mid) :
    mid.length ≤ extRun l 0 := by
  obtain ⟨s, t, rfl⟩ := hrun
  have h1 : extRun (mid ++ t) 0 ≤ extRun (s ++ (mid ++ t)) 0 := by
    exact extRun_append_le s (mid ++ t) 0
  have h2 : extRun (mid ++ t) 0 = extRun t mid.length := by
    rw [extRun_all_on_diet_append mid hdiet t 0]
    simp
  have h3 : mid.length ≤ extRun t mid.length := le_extRun t mid.length
  rw [List.append_assoc]
  omega

/-- Existence half, generalized for the induction: `extRun l cur` is either
`cur` plus the length of an all-on-diet *prefix* of `l`, or the exact length
of an all-on-diet contiguous segment of `l`. -/
theorem extRun_attained (l : List Meal) :
    ∀ cur : Nat,
      (∃ mid t, l = mid ++ t ∧ AllOnDiet mid ∧ extRun l cur = cur + mid.length) ∨
      (∃ mid, IsContiguousRun mid l ∧ AllOnDiet mid ∧ extRun l cur = mid.length) := by
  induction l with
  | nil =>
    intro cur
    exact Or.inl ⟨[], [], by simp, fun m hm => by simp at hm, by simp [extRun]⟩
  | cons m rest ih =>
    intro cur
    by_cases hm : m.is_on_diet = true
    · have h1 : extRun (m :: rest) cur = extRun rest (cur + 1) := by simp [extRun, hm]
      rcases ih (cur + 1) with ⟨mid, t, heq, hdiet, hval⟩ | ⟨mid, hrun, hdiet, hval⟩
      · refine Or.inl ⟨m :: mid, t, by simp [heq], ?_, ?_⟩
        · intro x hx
          rcases List.mem_cons.mp hx with h | h
          · simpa [h] using hm
          · exact hdiet x h
        · rw [h1]
          simp only [List.length_cons]
          omega
      · obtain ⟨s, t, heq⟩ := hrun
        refine Or.inr ⟨mid, ⟨m :: s, t, by simp [heq]⟩, hdiet, ?_⟩
        rw [h1]
        exact hval
    · have h1 : extRun (m :: rest) cur = max cur (extRun rest 0) := by simp [extRun, hm]
      by_cases hle : extRun rest 0 ≤ cur
      · refine Or.inl ⟨[], m :: rest, by simp, fun x hx => by simp at hx, ?_⟩
        rw [h1, Nat.max_eq_left hle]
        simp
      · have hmax : extRun (m :: rest) cur = extRun rest 0 := by
          rw [h1, Nat.max_eq_right (by omega)]
        rcases ih 0 with ⟨mid, t, heq, hdiet, hval⟩ | ⟨mid, hrun, hdiet, hval⟩
        · refine Or.inr ⟨mid, ⟨[m], t, by simp [heq]⟩, hdiet, ?_⟩
          rw [hmax, hval]
          omega
        · obtain ⟨s, t, heq⟩ := hrun
          refine Or.inr ⟨mid, ⟨m :: s, t, by simp [heq]⟩, hdiet, ?_⟩
          rw [hmax, hval]

/-- The accumulator loop computes `max best (extRun l cur)` whenever the
invariant `cur ≤ best` holds on entry. -/
theorem streakLoop_eq_extRun (l : List Meal) :
    ∀ cur best, cur ≤ best → streakLoop l cur best = max best (extRun l cur) := by
  induction l with
  | nil =>
    intro cur best h
    simp [streakLoop, extRun]
    omega
  | cons m rest ih =>
    intro cur best h
    by_cases hm : m.is_on_diet = true
    · have h1 : streakLoop (m :: rest) cur best =
          streakLoop rest (cur + 1) (if cur + 1 > best then cur + 1 else best) := by
        simp [streakLoop, hm]
      have h2 : extRun (m :: rest) cur = extRun rest (cur + 1) := by simp [extRun, hm]
      have hinv : cur + 1 ≤ if cur + 1 > best then cur + 1 else best := by
        split <;> omega
      rw [h1, h2, ih (cur + 1) _ hinv]
      have hext : cur + 1 ≤ extRun rest (cur + 1) := le_extRun rest (cur + 1)
      split <;> omega
    · have h1 : streakLoop (m :: rest) cur best = streakLoop rest 0 best := by
        simp [streakLoop, hm]
      have h2 : extRun (m :: rest) cur = max cur (extRun rest 0) := by simp [extRun, hm]
      rw [h1, h2, ih 0 best (Nat.zero_le best)]
      omega

theorem calculateBestStreak_eq_extRun (meals : List Meal) :
    calculateBestStreak (.arr meals) = extRun meals 0 := by
  cases meals with
  | nil => simp [calculateBestStreak, extRun]
  | cons m rest =>
    simp only [calculateBestStreak, List.length_cons, if_neg (Nat.succ_ne_zero _)]
    rw [streakLoop_eq_extRun (m :: rest) 0 0 (le_refl 0)]
    simp

theorem extRun_le_onDiet_count (l : List Meal) :
    ∀ cur, extRun l cur ≤ cur + (l.filter (fun m => m.is_on_diet)).length := by
  induction l with
  | nil => intro cur; simp [extRun]
  | cons m rest ih =>
    intro cur
    by_cases hm : m.is_on_diet = true
    · have h1 : extRun (m :: rest) cur = extRun rest (cur + 1) := by simp [extRun, hm]
      have h2 := ih (cur + 1)
      have h3 : ((m :: rest).filter (fun m => m.is_on_diet)).length
          = (rest.filter (fun m => m.is_on_diet)).length + 1 := by
        simp [List.filter_cons, hm]
      omega
    · have h1 : extRun (m :: rest) cur = max cur (extRun rest 0) := by simp [extRun, hm]
      have h2 := ih 0
      have h3 : ((m :: rest).filter (fun m => m.is_on_diet)).length
          = (rest.filter (fun m => m.is_on_diet)).length := by
        simp [List.filter_cons, hm]
      omega

end StreakCalculator

end DailyDiet

namespace DailyDiet

open StreakCalculator

/-- C1: `calculateBestStreak` returns the length of the longest contiguous
run of records whose `is_on_diet` flag is true; the degenerate inputs
`null`, `undefined` and the empty array yield 0. The result is a `Nat`,
hence always a non-negative integer. -/
theorem calculateBestStreak_longest_run :
    calculateBestStreak .jsNull = 0 ∧
    calculateBestStreak .jsUndefined = 0 ∧
    calculateBestStreak (.arr []) = 0 ∧
    ∀ meals : List Meal,
      (∃ mid, IsContiguousRun mid meals ∧ AllOnDiet mid ∧
        mid.length = calculateBestStreak (.arr meals)) ∧
      (∀ mid, IsContiguousRun mid meals → AllOnDiet mid →
        mid.length ≤ calculateBestStreak (.arr meals)) := by
  refine ⟨rfl, rfl, rfl, fun meals => ⟨?_, ?_⟩⟩
  · rw [calculateBestStreak_eq_extRun]
    rcases extRun_attained meals 0 with ⟨mid, t, heq, hdiet, hval⟩ | ⟨mid, hrun, hdiet, hval⟩
    · exact ⟨mid, ⟨[], t, by simpa using heq⟩, hdiet, by omega⟩
    · exact ⟨mid, hrun, hdiet, hval.symm⟩
  · intro mid hrun hdiet
    rw [calculateBestStreak_eq_extRun]
    exact run_le_extRun mid meals hrun hdiet

/-- C1 witness: at the concrete meal list on-on-off-on, the run consisting of
the first two meals is contiguous, all on-diet, and of length equal to the
computed best streak 2, and is bounded by it. -/
theorem calculateBestStreak_longest_run_witness :
    IsContiguousRun [⟨0, 0, true⟩, ⟨1, 1, true⟩]
        [⟨0, 0, true⟩, ⟨1, 1, true⟩, ⟨2, 2, false⟩, ⟨3, 3, true⟩] ∧
    AllOnDiet [⟨0, 0, true⟩, ⟨1, 1, true⟩] ∧
    ([⟨0, 0, true⟩, ⟨1, 1, true⟩] : List Meal).length ≤
      calculateBestStreak (.arr [⟨0, 0, true⟩, ⟨1, 1, true⟩, ⟨2, 2, false⟩, ⟨3, 3, true⟩]) := by
  refine ⟨⟨[], [⟨2, 2, false⟩, ⟨3, 3, true⟩], rfl⟩, by decide, ?_⟩
  exact (calculateBestStreak_longest_run.2.2.2
    [⟨0, 0, true⟩, ⟨1, 1, true⟩, ⟨2, 2, false⟩, ⟨3, 3, true⟩]).2
    [⟨0, 0, true⟩, ⟨1, 1, true⟩]
    ⟨[], [⟨2, 2, false⟩, ⟨3, 3, true⟩], rfl⟩ (by decide)

end DailyDiet

namespace DailyDiet

namespace MetricsService

/-- The metrics-service copy of the streak loop (metrics service file,
lines 28-39), syntactically identical to the utils version. -/
def streakLoop : List Meal → Nat → Nat → Nat
  | [], _, bestStreak => bestStreak
  | meal :: rest, currentStreak, bestStreak =>
    if meal.is_on_diet then
      streakLoop rest (currentStreak + 1)
        (if currentStreak + 1 > bestStreak then currentStreak + 1 else bestStreak)
    else
      streakLoop rest 0 bestStreak

/-- Body of the metrics-service `calculateBestStreak` when applied to an
actual array: `if (meals.length === 0) return 0` and then the loop. -/
def calculateBestStreakList (meals : List Meal) : Nat :=
  if meals.length = 0 then 0 else streakLoop meals 0 0

/-- The metrics-service copy of `calculateBestStreak` (metrics service file,
lines 20-42). Unlike the utils version it has no `!meals` guard, so reading
`meals.length` on `null` or `undefined` throws a TypeError, modelled as an
`Except.error`. -/
def calculateBestStreak : MealsInput → Except String Nat
  | .jsNull => .error "TypeError: Cannot read properties of null (reading length)"
  | .jsUndefined => .error "TypeError: Cannot read properties of undefined (reading length)"
  | .arr meals => .ok (calculateBestStreakList meals)

/-- The metrics object returned by `getMetrics`. -/
structure Metrics where
  total_meals : Nat
  total_on_diet : Nat
  total_off_diet : Nat
  best_streak : Nat
deriving Repr, DecidableEq

/-- `getMetrics` (metrics service file, lines 50-88) applied to the meals
fetched for the user ordered by datetime ascending; the database fetch and
logging are external collaborators. -/
def getMetrics (meals : List Meal) : Metrics :=
  { total_meals := meals.length
    total_on_diet := (meals.filter (fun meal => meal.is_on_diet)).length
    total_off_diet := (meals.filter (fun meal => !meal.is_on_diet)).length
    best_streak := calculateBestStreakList meals }

theorem streakLoop_eq_utils (l : List Meal) :
    ∀ cur best, streakLoop l cur best = StreakCalculator.streakLoop l cur best := by
  induction l with
  | nil => intro cur best; rfl
  | cons m rest ih =>
    intro cur best
    by_cases hm : m.is_on_diet = true
    · simp [streakLoop, StreakCalculator.streakLoop, hm, ih]
    · simp [streakLoop, StreakCalculator.streakLoop, hm, ih]

theorem calculateBestStreakList_eq_utils (meals : List Meal) :
    calculateBestStreakList meals = StreakCalculator.calculateBestStreak (.arr meals) := by
  simp [calculateBestStreakList, StreakCalculator.calculateBestStreak, streakLoop_eq_utils]

end MetricsService

/-- Helper: the on-diet and off-diet selections partition the meal list. -/
theorem length_filter_onDiet_add_offDiet (l : List Meal) :
    (l.filter (fun meal => meal.is_on_diet)).length
      + (l.filter (fun meal => !meal.is_on_diet)).length = l.length := by
  induction l with
  | nil => rfl
  | cons m rest ih =>
    by_cases hm : m.is_on_diet = true
    · simp [List.filter_cons, hm]
      omega
    · simp [List.filter_cons, hm]
      omega

end DailyDiet

namespace DailyDiet

/-- C9 counterexample: at the degenerate input `null`, the metrics-service
copy of `calculateBestStreak` does not return the utils result (0); it
throws a TypeError while reading `meals.length`, so the two definitions do
not return equal results on every input. -/
theorem metrics_streak_copy_differs_on_null :
    MetricsService.calculateBestStreak .jsNull ≠
      Except.ok (StreakCalculator.calculateBestStreak .jsNull) := by
  simp [MetricsService.calculateBestStreak, StreakCalculator.calculateBestStreak]

/-- C9 amended: the two `calculateBestStreak` definitions return equal
results on every actual array input; on the degenerate inputs `null` and
`undefined` the utils version returns 0 while the metrics-service copy
throws a TypeError instead of returning a value. -/
theorem metrics_streak_copy_agrees_on_arrays :
    (∀ meals : List Meal,
      MetricsService.calculateBestStreak (.arr meals) =
        Except.ok (StreakCalculator.calculateBestStreak (.arr meals))) ∧
    StreakCalculator.calculateBestStreak .jsNull = 0 ∧
    StreakCalculator.calculateBestStreak .jsUndefined = 0 ∧
    MetricsService.calculateBestStreak .jsNull =
      Except.error "TypeError: Cannot read properties of null (reading length)" ∧
    MetricsService.calculateBestStreak .jsUndefined =
      Except.error "TypeError: Cannot read properties of undefined (reading length)" := by
  refine ⟨fun meals => ?_, rfl, rfl, rfl, rfl⟩
  simp [MetricsService.calculateBestStreak, MetricsService.calculateBestStreakList_eq_utils]

/-- C10: the metrics object returned by `getMetrics` satisfies
`total_meals = total_on_diet + total_off_diet` and
`best_streak ≤ total_on_diet ≤ total_meals`; all four fields are natural
numbers, hence non-negative. -/
theorem getMetrics_invariants (meals : List Meal) :
    (MetricsService.getMetrics meals).total_meals =
        (MetricsService.getMetrics meals).total_on_diet
          + (MetricsService.getMetrics meals).total_off_diet ∧
    (MetricsService.getMetrics meals).best_streak ≤
        (MetricsService.getMetrics meals).total_on_diet ∧
    (MetricsService.getMetrics meals).total_on_diet ≤
        (MetricsService.getMetrics meals).total_meals := by
  refine ⟨?_, ?_, ?_⟩
  · have h := length_filter_onDiet_add_offDiet meals
    simp only [MetricsService.getMetrics]
    omega
  · have h1 : MetricsService.calculateBestStreakList meals
        = StreakCalculator.extRun meals 0 := by
      rw [MetricsService.calculateBestStreakList_eq_utils,
        StreakCalculator.calculateBestStreak_eq_extRun]
    have h2 := StreakCalculator.extRun_le_onDiet_count meals 0
    simp only [MetricsService.getMetrics]
    omega
  · simp only [MetricsService.getMetrics]
    exact List.length_filter_le _ _

end DailyDiet

namespace DailyDiet

/-- A persisted refresh token row (prisma model RefreshToken, table
refresh_tokens): id TEXT primary key, user_id TEXT, token TEXT with a unique
index, expires_at timestamp, revoked boolean. The created_at column plays no
role in the lifecycle logic and is omitted. -/
structure RefreshToken where
  id : String
  user_id : String
  token : String
  expires_at : Int
  revoked : Bool
deriving Repr, DecidableEq

/-- The refresh_tokens table, as the list of its rows. -/
abbrev TokenStore := List RefreshToken

namespace AuthService

/-- prisma.refreshToken.findUnique where token = value (authService.js
lines 185-188): the token column is unique, so the first match is the row. -/
def findUniqueToken (store : TokenStore) (token : String) : Option RefreshToken :=
  store.find? (fun r => r.token == token)

/-- revokeRefreshToken (authService.js lines 158-163):
prisma.refreshToken.update where id = tokenId, set revoked = true. -/
def revokeRefreshToken (store : TokenStore) (tokenId : String) : TokenStore :=
  store.map (fun r => if r.id = tokenId then { r with revoked := true } else r)

/-- revokeAllUserTokens (authService.js lines 170-175):
prisma.refreshToken.updateMany where user_id = userId and revoked = false,
set revoked = true. -/
def revokeAllUserTokens (store : TokenStore) (userId : String) : TokenStore :=
  store.map (fun r =>
    if r.user_id = userId ∧ r.revoked = false then { r with revoked := true } else r)

/-- prisma.refreshToken.create with revoked = false, as performed by login
(authService.js lines 103-110) and inside the rotation transaction
(lines 239-246). The row id and the crypto.randomUUID token value are
produced externally and passed as arguments here. -/
def createRefreshToken (store : TokenStore) (id userId token : String)
    (expiresAt : Int) : TokenStore :=
  store ++ [{ id := id, user_id := userId, token := token,
              expires_at := expiresAt, revoked := false }]

def REFRESH_TOKEN_EXPIRES_DAYS : Nat := 7

/-- getRefreshTokenExpiration (authService.js lines 54-58): now plus 7 days,
with time measured in milliseconds since the epoch. -/
def getRefreshTokenExpiration (now : Int) : Int :=
  now + REFRESH_TOKEN_EXPIRES_DAYS * 86400000

/-- rotateRefreshToken (authService.js lines 183-260). The arguments newId
and newToken stand for the externally generated row id and
crypto.randomUUID value of the replacement token; the signed JWT access
token of the returned pair comes from the external signer and is not
modelled. The result is the new store state together with either the new
refresh token value or the AuthError message. -/
def rotateRefreshToken (store : TokenStore) (token : String) (now : Int)
    (newId newToken : String) : TokenStore × Except String String :=
  match findUniqueToken store token with
  | none => (store, .error "Invalid refresh token")
  | some existingToken =>
    if existingToken.revoked then
      (revokeAllUserTokens store existingToken.user_id, .error "Invalid refresh token")
    else if now > existingToken.expires_at then
      (revokeRefreshToken store existingToken.id, .error "Refresh token expired")
    else
      (createRefreshToken (revokeRefreshToken store existingToken.id)
          newId existingToken.user_id newToken (getRefreshTokenExpiration now),
        .ok newToken)

/-- The read-and-validate phase of rotateRefreshToken (lines 185-224): the
findUnique lookup and the three checks, including the store writes of the
two error branches. In the source this phase runs OUTSIDE the
prisma.$transaction. -/
def rotateValidate (store : TokenStore) (token : String) (now : Int) :
    TokenStore × Except String RefreshToken :=
  match findUniqueToken store token with
  | none => (store, .error "Invalid refresh token")
  | some existingToken =>
    if existingToken.revoked then
      (revokeAllUserTokens store existingToken.user_id, .error "Invalid refresh token")
    else if now > existingToken.expires_at then
      (revokeRefreshToken store existingToken.id, .error "Refresh token expired")
    else
      (store, .ok existingToken)

/-- The prisma.$transaction of rotateRefreshToken (lines 232-247): revoke
the presented row by id and insert the freshly generated replacement,
atomically. -/
def rotateCommit (store : TokenStore) (existingToken : RefreshToken) (now : Int)
    (newId newToken : String) : TokenStore × String :=
  (createRefreshToken (revokeRefreshToken store existingToken.id)
      newId existingToken.user_id newToken (getRefreshTokenExpiration now),
    newToken)

/-- Fidelity of the two-phase decomposition: a rotate call executed in
isolation is the validate phase followed, on success, by the commit phase. -/
theorem rotateRefreshToken_eq_phases (store : TokenStore) (token : String)
    (now : Int) (newId newToken : String) :
    rotateRefreshToken store token now newId newToken =
      match rotateValidate store token now with
      | (s, .error e) => (s, .error e)
      | (s, .ok ex) =>
        ((rotateCommit s ex now newId newToken).1,
          .ok (rotateCommit s ex now newId newToken).2) := by
  unfold rotateRefreshToken rotateValidate rotateCommit
  cases findUniqueToken store token with
  | none => rfl
  | some ex =>
    by_cases hrev : ex.revoked
    · simp [hrev]
    · by_cases hexp : now > ex.expires_at
      · simp [hrev, hexp]
      · simp [hrev, hexp]

/-- The unique index refresh_tokens_token_key on the token column. -/
def TokenValuesUnique (store : TokenStore) : Prop :=
  (store.map RefreshToken.token).Nodup

/-- The primary key on the id column. -/
def IdsUnique (store : TokenStore) : Prop :=
  (store.map RefreshToken.id).Nodup

instance (store : TokenStore) : Decidable (TokenValuesUnique store) := by
  unfold TokenValuesUnique; infer_instance

instance (store : TokenStore) : Decidable (IdsUnique store) := by
  unfold IdsUnique; infer_instance

theorem findUniqueToken_of_mem (store : TokenStore) (t : RefreshToken)
    (huniq : TokenValuesUnique store) (hmem : t ∈ store) :
    findUniqueToken store t.token = some t := by
  induction store with
  | nil => simp at hmem
  | cons r rest ih =>
    have hnodup := huniq
    simp only [TokenValuesUnique, List.map_cons, List.nodup_cons] at hnodup
    rcases List.mem_cons.mp hmem with rfl | hmem'
    · unfold findUniqueToken
      rw [List.find?_cons_of_pos _ (by simp)]
    · have hne : (r.token == t.token) = false := by
        rw [beq_eq_false_iff_ne]
        intro h
        exact hnodup.1 (by rw [h]; exact List.mem_map_of_mem RefreshToken.token hmem')
      unfold findUniqueToken
      rw [List.find?_cons_of_neg _ (by simp [hne])]
      simpa [findUniqueToken] using ih hnodup.2 hmem'

theorem mem_revokeRefreshToken_of_ne (store : TokenStore) (tokenId : String)
    (r : RefreshToken) (hmem : r ∈ store) (hne : r.id ≠ tokenId) :
    r ∈ revokeRefreshToken store tokenId := by
  unfold revokeRefreshToken
  have h : (fun x => if x.id = tokenId then { x with revoked := true } else x) r = r := by
    simp [hne]
  rw [← h]
  exact List.mem_map_of_mem _ hmem

theorem revokeRefreshToken_revokes_id (store : TokenStore) (tokenId : String) :
    ∀ r ∈ revokeRefreshToken store tokenId, r.id = tokenId → r.revoked = true := by
  intro r hr hid
  unfold revokeRefreshToken at hr
  rcases List.mem_map.mp hr with ⟨r₀, hr₀, hfr⟩
  by_cases hc : r₀.id = tokenId
  · rw [if_pos hc] at hfr
    rw [← hfr]
  · rw [if_neg hc] at hfr
    subst hfr
    exact absurd hid hc

theorem revokeAllUserTokens_revokes_user (store : TokenStore) (userId : String) :
    ∀ r ∈ revokeAllUserTokens store userId, r.user_id = userId → r.revoked = true := by
  intro r hr huser
  unfold revokeAllUserTokens at hr
  rcases List.mem_map.mp hr with ⟨r₀, hr₀, hfr⟩
  by_cases hc : r₀.user_id = userId ∧ r₀.revoked = false
  · rw [if_pos hc] at hfr
    rw [← hfr]
  · rw [if_neg hc] at hfr
    subst hfr
    cases hb : r₀.revoked with
    | false => exact absurd ⟨huser, hb⟩ hc
    | true => rfl

end AuthService

end DailyDiet

namespace DailyDiet

open AuthService

/-- C2 amended: rotating a stored, already-revoked refresh token fails with
the AuthError message "Invalid refresh token" (the source capitalizes the
first word; the claimed lowercase "invalid refresh token" does not occur),
and as a side effect every currently-unrevoked token of that user is
revoked, so afterwards the user has zero unrevoked tokens. -/
theorem rotate_revoked_reuse_detection (store : TokenStore) (t : RefreshToken)
    (now : Int) (newId newToken : String)
    (huniq : TokenValuesUnique store) (hmem : t ∈ store) (hrev : t.revoked = true) :
    rotateRefreshToken store t.token now newId newToken
      = (revokeAllUserTokens store t.user_id, Except.error "Invalid refresh token") ∧
    ∀ r ∈ (rotateRefreshToken store t.token now newId newToken).1,
      r.user_id = t.user_id → r.revoked = true := by
  have hfind := findUniqueToken_of_mem store t huniq hmem
  have heq : rotateRefreshToken store t.token now newId newToken
      = (revokeAllUserTokens store t.user_id, Except.error "Invalid refresh token") := by
    unfold rotateRefreshToken
    rw [hfind]
    simp [hrev]
  refine ⟨heq, ?_⟩
  rw [heq]
  exact revokeAllUserTokens_revokes_user store t.user_id

/-- Row and store used by the reuse-detection counterexample and witness:
a revoked token and a sibling active token of the same user. -/
def revokedTokenRow : RefreshToken :=
  { id := "id-a", user_id := "user-1", token := "tok-a", expires_at := 999, revoked := true }

def reuseStore : TokenStore :=
  [revokedTokenRow,
   { id := "id-c", user_id := "user-1", token := "tok-c", expires_at := 999, revoked := false }]

/-- C2 counterexample: rotating the revoked token of reuseStore fails, but
the AuthError message is "Invalid refresh token", not the lowercase
"invalid refresh token" stated by the claim. -/
theorem rotate_revoked_message_not_lowercase :
    (rotateRefreshToken reuseStore "tok-a" 0 "id-x" "tok-x").2
      ≠ Except.error "invalid refresh token" := by
  intro h
  rw [show (rotateRefreshToken reuseStore "tok-a" 0 "id-x" "tok-x").2
      = Except.error "Invalid refresh token" from rfl] at h
  injection h with h'
  exact absurd h' (by decide)

/-- C2 witness: the amended theorem instantiated on reuseStore, whose
hypotheses hold by computation. -/
theorem rotate_revoked_reuse_detection_witness :
    (TokenValuesUnique reuseStore ∧ revokedTokenRow ∈ reuseStore ∧
      revokedTokenRow.revoked = true) ∧
    (rotateRefreshToken reuseStore revokedTokenRow.token 0 "id-x" "tok-x"
        = (revokeAllUserTokens reuseStore revokedTokenRow.user_id,
            Except.error "Invalid refresh token") ∧
      ∀ r ∈ (rotateRefreshToken reuseStore revokedTokenRow.token 0 "id-x" "tok-x").1,
        r.user_id = revokedTokenRow.user_id → r.revoked = true) :=
  ⟨⟨by decide, by decide, by decide⟩,
    rotate_revoked_reuse_detection reuseStore revokedTokenRow 0 "id-x" "tok-x"
      (by decide) (by decide) (by decide)⟩

/-- C3 amended: rotating a stored, unrevoked token whose expires_at lies
strictly in the past fails with the AuthError message
"Refresh token expired" (the source capitalizes the first word; the claimed
lowercase "refresh token expired" does not occur), afterwards that token is
revoked, and no new token is created (the store keeps its length). -/
theorem rotate_expired_cleanup (store : TokenStore) (t : RefreshToken)
    (now : Int) (newId newToken : String)
    (huniq : TokenValuesUnique store) (hmem : t ∈ store)
    (hrev : t.revoked = false) (hexp : t.expires_at < now) :
    rotateRefreshToken store t.token now newId newToken
      = (revokeRefreshToken store t.id, Except.error "Refresh token expired") ∧
    (∀ r ∈ (rotateRefreshToken store t.token now newId newToken).1,
        r.id = t.id → r.revoked = true) ∧
    (rotateRefreshToken store t.token now newId newToken).1.length = store.length := by
  have hfind := findUniqueToken_of_mem store t huniq hmem
  have heq : rotateRefreshToken store t.token now newId newToken
      = (revokeRefreshToken store t.id, Except.error "Refresh token expired") := by
    unfold rotateRefreshToken
    rw [hfind]
    simp [hrev, hexp]
  refine ⟨heq, ?_, ?_⟩
  · rw [heq]
    exact revokeRefreshToken_revokes_id store t.id
  · rw [heq]
    simp [revokeRefreshToken]

/-- Row used by the expiry counterexample and witness: unrevoked but past
its expiry. -/
def expiredTokenRow : RefreshToken :=
  { id := "id-e", user_id := "user-2", token := "tok-e", expires_at := 5, revoked := false }

/-- C3 counterexample: rotating the expired token fails, but the AuthError
message is "Refresh token expired", not the lowercase
"refresh token expired" stated by the claim. -/
theorem rotate_expired_message_not_lowercase :
    (rotateRefreshToken [expiredTokenRow] "tok-e" 10 "id-x" "tok-x").2
      ≠ Except.error "refresh token expired" := by
  intro h
  rw [show (rotateRefreshToken [expiredTokenRow] "tok-e" 10 "id-x" "tok-x").2
      = Except.error "Refresh token expired" from rfl] at h
  injection h with h'
  exact absurd h' (by decide)

/-- C3 witness: the amended theorem instantiated on the one-row store
holding the expired token. -/
theorem rotate_expired_cleanup_witness :
    (TokenValuesUnique [expiredTokenRow] ∧ expiredTokenRow ∈ [expiredTokenRow] ∧
      expiredTokenRow.revoked = false ∧ expiredTokenRow.expires_at < 10) ∧
    (rotateRefreshToken [expiredTokenRow] expiredTokenRow.token 10 "id-x" "tok-x"
        = (revokeRefreshToken [expiredTokenRow] expiredTokenRow.id,
            Except.error "Refresh token expired") ∧
      (∀ r ∈ (rotateRefreshToken [expiredTokenRow] expiredTokenRow.token 10 "id-x" "tok-x").1,
          r.id = expiredTokenRow.id → r.revoked = true) ∧
      (rotateRefreshToken [expiredTokenRow] expiredTokenRow.token 10 "id-x" "tok-x").1.length
        = ([expiredTokenRow] : TokenStore).length) :=
  ⟨⟨by decide, by decide, by decide, by decide⟩,
    rotate_expired_cleanup [expiredTokenRow] expiredTokenRow 10 "id-x" "tok-x"
      (by decide) (by decide) (by decide) (by decide)⟩

end DailyDiet

namespace DailyDiet

open AuthService

/-- C4: rotating a stored, unrevoked, unexpired token succeeds: the store
becomes "revoke the presented row by id, then insert the fresh row", the
presented token is revoked afterwards, exactly one row whose token value
was not present before now exists — unrevoked and owned by the same user —
and the returned refresh token value differs from the presented one. -/
theorem rotate_active_success (store : TokenStore) (t : RefreshToken)
    (now : Int) (newId newToken : String)
    (huniq : TokenValuesUnique store) (hmem : t ∈ store)
    (hrev : t.revoked = false) (hexp : now ≤ t.expires_at)
    (hid : newId ∉ store.map RefreshToken.id)
    (htok : newToken ∉ store.map RefreshToken.token) :
    rotateRefreshToken store t.token now newId newToken
      = (createRefreshToken (revokeRefreshToken store t.id)
            newId t.user_id newToken (getRefreshTokenExpiration now),
          Except.ok newToken) ∧
    (∀ r ∈ (rotateRefreshToken store t.token now newId newToken).1,
        r.id = t.id → r.revoked = true) ∧
    (rotateRefreshToken store t.token now newId newToken).1.filter
        (fun r => decide (r.token ∉ store.map RefreshToken.token))
      = [{ id := newId, user_id := t.user_id, token := newToken,
           expires_at := getRefreshTokenExpiration now, revoked := false }] ∧
    (rotateRefreshToken store t.token now newId newToken).2 = Except.ok newToken ∧
    newToken ≠ t.token := by
  have hfind := findUniqueToken_of_mem store t huniq hmem
  have hnotgt : ¬ now > t.expires_at := by omega
  have heq : rotateRefreshToken store t.token now newId newToken
      = (createRefreshToken (revokeRefreshToken store t.id)
            newId t.user_id newToken (getRefreshTokenExpiration now),
          Except.ok newToken) := by
    unfold rotateRefreshToken
    rw [hfind]
    simp [hrev, hnotgt]
  have hmemtok : t.token ∈ store.map RefreshToken.token :=
    List.mem_map_of_mem RefreshToken.token hmem
  refine ⟨heq, ?_, ?_, ?_, ?_⟩
  · rw [heq]
    intro r hr hrid
    simp only [createRefreshToken] at hr
    rcases List.mem_append.mp hr with hr1 | hr2
    · exact revokeRefreshToken_revokes_id store t.id r hr1 hrid
    · exfalso
      have hr2' := List.mem_singleton.mp hr2
      have hnewid : r.id = newId := by rw [hr2']
      apply hid
      rw [← hnewid, hrid]
      exact List.mem_map_of_mem RefreshToken.id hmem
  · rw [heq]
    simp only [createRefreshToken, List.filter_append]
    have h1 : (revokeRefreshToken store t.id).filter
        (fun r => decide (r.token ∉ store.map RefreshToken.token)) = [] := by
      rw [List.filter_eq_nil_iff]
      intro r hr
      rcases List.mem_map.mp hr with ⟨r₀, hr₀, hfr⟩
      have htokeq : r.token = r₀.token := by
        rw [← hfr]
        by_cases hc : r₀.id = t.id
        · rw [if_pos hc]
        · rw [if_neg hc]
      simp only [decide_eq_true_eq, not_not]
      rw [htokeq]
      exact List.mem_map_of_mem RefreshToken.token hr₀
    rw [h1]
    simp [htok]
    intro x hx hxe
    exact htok (hxe ▸ List.mem_map_of_mem RefreshToken.token hx)
  · rw [heq]
  · intro h
    apply htok
    rw [h]
    exact hmemtok

/-- Row used by the successful-rotation witness. -/
def activeTokenRow : RefreshToken :=
  { id := "id-r", user_id := "user-3", token := "tok-r", expires_at := 100, revoked := false }

/-- C4 witness: the theorem instantiated on a one-row store holding an
active token, rotated at time 50 with fresh id and token value. -/
theorem rotate_active_success_witness :
    (TokenValuesUnique [activeTokenRow] ∧ activeTokenRow ∈ [activeTokenRow] ∧
      activeTokenRow.revoked = false ∧ (50 : Int) ≤ activeTokenRow.expires_at ∧
      "id-n" ∉ ([activeTokenRow] : TokenStore).map RefreshToken.id ∧
      "tok-n" ∉ ([activeTokenRow] : TokenStore).map RefreshToken.token) ∧
    (rotateRefreshToken [activeTokenRow] activeTokenRow.token 50 "id-n" "tok-n"
        = (createRefreshToken (revokeRefreshToken [activeTokenRow] activeTokenRow.id)
              "id-n" activeTokenRow.user_id "tok-n" (getRefreshTokenExpiration 50),
            Except.ok "tok-n") ∧
      (∀ r ∈ (rotateRefreshToken [activeTokenRow] activeTokenRow.token 50 "id-n" "tok-n").1,
          r.id = activeTokenRow.id → r.revoked = true) ∧
      (rotateRefreshToken [activeTokenRow] activeTokenRow.token 50 "id-n" "tok-n").1.filter
          (fun r => decide (r.token ∉ ([activeTokenRow] : TokenStore).map RefreshToken.token))
        = [{ id := "id-n", user_id := activeTokenRow.user_id, token := "tok-n",
             expires_at := getRefreshTokenExpiration 50, revoked := false }] ∧
      (rotateRefreshToken [activeTokenRow] activeTokenRow.token 50 "id-n" "tok-n").2
        = Except.ok "tok-n" ∧
      "tok-n" ≠ activeTokenRow.token) :=
  ⟨⟨by decide, by decide, by decide, by decide, by decide, by decide⟩,
    rotate_active_success [activeTokenRow] activeTokenRow 50 "id-n" "tok-n"
      (by decide) (by decide) (by decide) (by decide) (by decide) (by decide)⟩

end DailyDiet

namespace DailyDiet

open AuthService

/-- Monotonicity of the revoked flag between two store states: every row of
the pre-state that is revoked stays revoked in every post-state row that
carries the same primary key. -/
def RevokedMonotone (pre post : TokenStore) : Prop :=
  ∀ r ∈ pre, r.revoked = true → ∀ r' ∈ post, r'.id = r.id → r'.revoked = true

theorem revokedMonotone_self (store : TokenStore) (hids : IdsUnique store) :
    RevokedMonotone store store := by
  have hids' : (store.map RefreshToken.id).Nodup := hids
  intro r hr hrev r' hr' hid
  have h := List.inj_on_of_nodup_map hids' hr' hr hid
  rw [h]
  exact hrev

theorem revokedMonotone_map (store : TokenStore) (hids : IdsUnique store)
    (f : RefreshToken → RefreshToken)
    (hid : ∀ x, (f x).id = x.id)
    (hrev : ∀ x, x.revoked = true → (f x).revoked = true) :
    RevokedMonotone store (store.map f) := by
  have hids' : (store.map RefreshToken.id).Nodup := hids
  intro r hr hrrev r' hr' hideq
  rcases List.mem_map.mp hr' with ⟨r₀, hr₀, rfl⟩
  have h1 : r₀.id = r.id := by rw [← hid r₀]; exact hideq
  have h2 : r₀ = r := List.inj_on_of_nodup_map hids' hr₀ hr h1
  rw [h2]
  exact hrev r hrrev

theorem revokedMonotone_append_fresh (pre post rest : TokenStore)
    (h : RevokedMonotone pre post)
    (hfresh : ∀ r' ∈ rest, r'.id ∉ pre.map RefreshToken.id) :
    RevokedMonotone pre (post ++ rest) := by
  intro r hr hrrev r' hr' hideq
  rcases List.mem_append.mp hr' with h1 | h2
  · exact h r hr hrrev r' h1 hideq
  · exfalso
    apply hfresh r' h2
    rw [hideq]
    exact List.mem_map_of_mem RefreshToken.id hr

/-- C5: across the store operations of the token lifecycle — create at
login, revoke one by id, revoke all for a user, and every branch of
rotate — a token revoked before the operation is still revoked after it;
no operation resets the flag of an existing row. -/
theorem refresh_token_revoked_monotone (store : TokenStore)
    (uid tokv tid v : String) (exp now : Int) (newId newToken : String)
    (hids : IdsUnique store) (hfresh : newId ∉ store.map RefreshToken.id) :
    RevokedMonotone store (createRefreshToken store newId uid tokv exp) ∧
    RevokedMonotone store (revokeRefreshToken store tid) ∧
    RevokedMonotone store (revokeAllUserTokens store uid) ∧
    RevokedMonotone store (rotateRefreshToken store v now newId newToken).1 := by
  have hself := revokedMonotone_self store hids
  have hmapRevoke : ∀ tokenId, RevokedMonotone store (revokeRefreshToken store tokenId) := by
    intro tokenId
    unfold revokeRefreshToken
    apply revokedMonotone_map store hids
    · intro x
      by_cases hc : x.id = tokenId
      · simp [hc]
      · simp [hc]
    · intro x hx
      by_cases hc : x.id = tokenId
      · simp [hc]
      · simp [hc, hx]
  have hmapAll : ∀ u, RevokedMonotone store (revokeAllUserTokens store u) := by
    intro u
    unfold revokeAllUserTokens
    apply revokedMonotone_map store hids
    · intro x
      by_cases hc : x.user_id = u ∧ x.revoked = false
      · simp [hc]
      · simp [hc]
    · intro x hx
      by_cases hc : x.user_id = u ∧ x.revoked = false
      · simp [hc]
      · simp [hc, hx]
  have hcreate : RevokedMonotone store (createRefreshToken store newId uid tokv exp) := by
    unfold createRefreshToken
    apply revokedMonotone_append_fresh store store _ hself
    intro r' hr'
    rw [List.mem_singleton.mp hr']
    exact hfresh
  refine ⟨hcreate, hmapRevoke tid, hmapAll uid, ?_⟩
  unfold rotateRefreshToken
  split
  · exact hself
  · next ex heq =>
      split
      · next hrev => exact hmapAll ex.user_id
      · next hrev =>
          split
          · next hexp => exact hmapRevoke ex.id
          · next hexp =>
              unfold createRefreshToken
              apply revokedMonotone_append_fresh store (revokeRefreshToken store ex.id) _
                (hmapRevoke ex.id)
              intro r' hr'
              rw [List.mem_singleton.mp hr']
              exact hfresh

/-- Store used by the monotonicity witness: one revoked and one active row
with distinct primary keys. -/
def monotoneStore : TokenStore :=
  [revokedTokenRow,
   { id := "id-c", user_id := "user-1", token := "tok-c", expires_at := 999, revoked := false }]

/-- C5 witness: the monotonicity theorem instantiated on monotoneStore with
a fresh replacement id. -/
theorem refresh_token_revoked_monotone_witness :
    (IdsUnique monotoneStore ∧
      "id-n" ∉ monotoneStore.map RefreshToken.id) ∧
    (RevokedMonotone monotoneStore
        (createRefreshToken monotoneStore "id-n" "user-1" "tok-n" 999) ∧
      RevokedMonotone monotoneStore (revokeRefreshToken monotoneStore "id-a") ∧
      RevokedMonotone monotoneStore (revokeAllUserTokens monotoneStore "user-1") ∧
      RevokedMonotone monotoneStore
        (rotateRefreshToken monotoneStore "tok-c" 0 "id-n" "tok-n").1) :=
  ⟨⟨by decide, by decide⟩,
    refresh_token_revoked_monotone monotoneStore "user-1" "tok-n" "id-a" "tok-c" 999 0
      "id-n" "tok-n" (by decide) (by decide)⟩

end DailyDiet

namespace DailyDiet

open AuthService

/-- C6: revoking with only a userId (revokeAllUserTokens) leaves zero
unrevoked tokens for that user, and the operation is idempotent: running it
a second time succeeds and changes no row. -/
theorem revokeAllUserTokens_complete_idempotent (store : TokenStore) (userId : String) :
    (∀ r ∈ revokeAllUserTokens store userId, r.user_id = userId → r.revoked = true) ∧
    revokeAllUserTokens (revokeAllUserTokens store userId) userId
      = revokeAllUserTokens store userId := by
  refine ⟨revokeAllUserTokens_revokes_user store userId, ?_⟩
  unfold revokeAllUserTokens
  rw [List.map_map]
  apply List.map_congr_left
  intro r hr
  by_cases hu : r.user_id = userId
  · by_cases hv : r.revoked = false
    · simp [Function.comp_apply, hu, hv]
    · simp [Function.comp_apply, hu, hv]
  · simp [Function.comp_apply, hu]

/-- C6 witness: the theorem instantiated on reuseStore and user-1. -/
theorem revokeAllUserTokens_complete_idempotent_witness :
    (∀ r ∈ revokeAllUserTokens reuseStore "user-1", r.user_id = "user-1" → r.revoked = true) ∧
    revokeAllUserTokens (revokeAllUserTokens reuseStore "user-1") "user-1"
      = revokeAllUserTokens reuseStore "user-1" :=
  revokeAllUserTokens_complete_idempotent reuseStore "user-1"

/-- Modelled from the spec: the logout controller that binds the
authenticated user to the revocation helpers is not among the repository
source files — routes/v1/logout.js refers to sessionController.logout,
which appears nowhere under the sources, while the service helpers
revokeRefreshToken and revokeAllUserTokens do appear. Following the spec
text for `revoke(userId, specificTokenValue?)`: with a specific value, look
the token up and revoke it only when it belongs to userId, otherwise ignore
it; with no specific value, revoke all unrevoked tokens of the user. -/
def revoke (store : TokenStore) (userId : String) (specificTokenValue : Option String) :
    TokenStore :=
  match specificTokenValue with
  | none => revokeAllUserTokens store userId
  | some v =>
    match findUniqueToken store v with
    | none => store
    | some ex =>
      if ex.user_id = userId then revokeRefreshToken store ex.id else store

/-- C7: with a specific token value owned by the user, revoke revokes
exactly that row — the store becomes the by-id revocation of that row,
every other row is still present unchanged (so unrevoked siblings stay
unrevoked), and the row itself is revoked afterwards; with a token value
owned by a different user, revoke returns the store unchanged. -/
theorem revoke_specific_scoped (store : TokenStore) (t : RefreshToken) (userId : String)
    (huniq : TokenValuesUnique store) (hmem : t ∈ store) :
    (t.user_id = userId →
      revoke store userId (some t.token) = revokeRefreshToken store t.id ∧
      (∀ r ∈ store, r.id ≠ t.id → r ∈ revoke store userId (some t.token)) ∧
      (∀ r ∈ revoke store userId (some t.token), r.id = t.id → r.revoked = true)) ∧
    (t.user_id ≠ userId → revoke store userId (some t.token) = store) := by
  have hfind := findUniqueToken_of_mem store t huniq hmem
  constructor
  · intro hu
    have heq : revoke store userId (some t.token) = revokeRefreshToken store t.id := by
      simp only [revoke]
      rw [hfind]
      simp [hu]
    refine ⟨heq, ?_, ?_⟩
    · intro r hr hne
      rw [heq]
      exact mem_revokeRefreshToken_of_ne store t.id r hr hne
    · rw [heq]
      exact revokeRefreshToken_revokes_id store t.id
  · intro hu
    simp only [revoke]
    rw [hfind]
    simp [hu]

/-- Two active sibling tokens of the same user, for the scoped-revoke
witness. -/
def siblingTokenRow : RefreshToken :=
  { id := "id-1", user_id := "user-9", token := "tok-1", expires_at := 999, revoked := false }

def siblingStore : TokenStore :=
  [siblingTokenRow,
   { id := "id-2", user_id := "user-9", token := "tok-2", expires_at := 999, revoked := false }]

/-- C7 witness: the owned-token half of the theorem instantiated on
siblingStore. -/
theorem revoke_specific_scoped_witness :
    (TokenValuesUnique siblingStore ∧ siblingTokenRow ∈ siblingStore ∧
      siblingTokenRow.user_id = "user-9") ∧
    (revoke siblingStore "user-9" (some siblingTokenRow.token)
        = revokeRefreshToken siblingStore siblingTokenRow.id ∧
      (∀ r ∈ siblingStore, r.id ≠ siblingTokenRow.id →
        r ∈ revoke siblingStore "user-9" (some siblingTokenRow.token)) ∧
      (∀ r ∈ revoke siblingStore "user-9" (some siblingTokenRow.token),
        r.id = siblingTokenRow.id → r.revoked = true)) :=
  ⟨⟨by decide, by decide, by decide⟩,
    (revoke_specific_scoped siblingStore siblingTokenRow "user-9"
      (by decide) (by decide)).1 (by decide)⟩

/-- One active unexpired token of user-1, for the rotation race. -/
def raceToken : RefreshToken :=
  { id := "id-0", user_id := "user-1", token := "tok-a", expires_at := 1000, revoked := false }

def raceStore : TokenStore := [raceToken]

/-- C8 (failing execution): in the interleaving where both rotate calls run
their read-and-validate phase — which the source leaves OUTSIDE the
prisma.$transaction — before either transaction commits, both validations
observe the token as active, both commits then apply (the by-id update of
an already-revoked row succeeds, and each insert is fresh), so BOTH calls
return new token pairs and the user ends with two unrevoked tokens: the
race double-issues instead of failing one of the calls. -/
theorem rotate_race_both_succeed :
    (rotateValidate raceStore "tok-a" 500).2 = Except.ok raceToken ∧
    (rotateValidate raceStore "tok-a" 500).1 = raceStore ∧
    (rotateCommit raceStore raceToken 500 "id-1" "tok-b").2 = "tok-b" ∧
    (rotateCommit (rotateCommit raceStore raceToken 500 "id-1" "tok-b").1
        raceToken 500 "id-2" "tok-c").2 = "tok-c" ∧
    ((rotateCommit (rotateCommit raceStore raceToken 500 "id-1" "tok-b").1
        raceToken 500 "id-2" "tok-c").1.filter (fun r => !r.revoked)).length = 2 := by
  refine ⟨rfl, rfl, rfl, rfl, ?_⟩
  decide

end DailyDiet
